import Mathlib

/-!
Verification of the generated `testing1` API client (`src/gen/testing1/src/api.rs`),
centred on the request-execution pipeline shared by every call builder
(`doit` of `ApplicationDetailServiceGetApkDetailCall`, `ProjectTestMatriceCancelCall`,
`ProjectTestMatriceGetCall`, ...).

The shallow embedding models:
  * JSON values and the null-value removal applied to request bodies;
  * the request/response schema structs that the cited claims touch
    (`FileReference`, `Account`, `GoogleAuto`) with their serde
    serialization/deserialization behaviour;
  * the `doit` pipeline as a fuel-indexed interpreter producing an event trace
    (delegate notifications, token requests, transport requests) together with
    an optional outcome (`none` = the retry loop is still running after `fuel`
    iterations).

External collaborators (token provider, HTTP transport, the delegate's
decision hooks, and the serde_json codec) are supplied through an `Env`
record, exactly at the points where `doit` invokes them.
-/

namespace Testing1

/-- JSON values, modelling `serde_json::value::Value`.  Objects keep their
fields as an association list. -/
inductive Json : Type
  | null : Json
  | bool : Bool → Json
  | num : Int → Json
  | str : String → Json
  | arr : List Json → Json
  | obj : List (String × Json) → Json
deriving Repr

/-- Model of `serde_json::Value::is_null`. -/
def Json.isNull : Json → Bool
  | Json.null => true
  | _ => false

mutual

/-- Modelled from the spec: `client::remove_json_null_values` (the `client`
module lives outside `src/`; the spec describes the request serialization as
"serde serialization followed by removal of JSON null values").  Null entries
of objects are dropped, other values are traversed recursively. -/
def remove_json_null_values : Json → Json
  | Json.obj fields => Json.obj (removeNullFields fields)
  | Json.arr elems => Json.arr (removeNullElems elems)
  | j => j

/-- Object traversal of `remove_json_null_values`: drop fields whose value is
null, recurse into the others. -/
def removeNullFields : List (String × Json) → List (String × Json)
  | [] => []
  | (k, v) :: rest =>
    if v.isNull then removeNullFields rest
    else (k, remove_json_null_values v) :: removeNullFields rest

/-- Array traversal of `remove_json_null_values`. -/
def removeNullElems : List Json → List Json
  | [] => []
  | v :: rest => remove_json_null_values v :: removeNullElems rest

end

-- ## Schema structs (the ones the claims cite)

/-- Rust struct `GoogleAuto { _never_set: Option<bool> }` (api.rs:760). -/
structure GoogleAuto where
  _never_set : Option Bool
deriving Repr, DecidableEq

/-- Rust struct `Account { google_auto: Option<GoogleAuto> }` (api.rs:182,
serde rename: `googleAuto`). -/
structure Account where
  google_auto : Option GoogleAuto
deriving Repr, DecidableEq

/-- Rust struct `FileReference { gcs_path: Option<String> }` (api.rs:727,
serde rename: `gcsPath`). -/
structure FileReference where
  gcs_path : Option String
deriving Repr, DecidableEq

/-- serde serialization of an `Option` field: `None` serializes as JSON null. -/
def optJson (f : α → Json) : Option α → Json
  | none => Json.null
  | some a => f a

/-- Model of `serde_json::value::to_value` on `GoogleAuto`. -/
def GoogleAuto.toJson (g : GoogleAuto) : Json :=
  Json.obj [("_never_set", optJson Json.bool g._never_set)]

/-- Model of `serde_json::value::to_value` on `Account`. -/
def Account.toJson (a : Account) : Json :=
  Json.obj [("googleAuto", optJson GoogleAuto.toJson a.google_auto)]

/-- Model of `serde_json::value::to_value` on `FileReference`. -/
def FileReference.toJson (r : FileReference) : Json :=
  Json.obj [("gcsPath", optJson Json.str r.gcs_path)]

/-- Field lookup during serde deserialization: a missing field of `Option`
type behaves like an explicit null (both decode to `None`). -/
def jsonField (fields : List (String × Json)) (key : String) : Json :=
  match fields.find? (fun p => p.1 = key) with
  | some p => p.2
  | none => Json.null

/-- serde deserialization of an `Option` field: null decodes to `None`,
otherwise the inner decoder must succeed. -/
def decodeOpt (f : Json → Option α) : Json → Option (Option α)
  | Json.null => some none
  | j => (f j).map some

/-- serde deserialization of a `bool`. -/
def decodeBool : Json → Option Bool
  | Json.bool b => some b
  | _ => none

/-- serde deserialization of a `String`. -/
def decodeString : Json → Option String
  | Json.str s => some s
  | _ => none

/-- Model of the serde `Deserialize` impl for `GoogleAuto`. -/
def GoogleAuto.fromJson : Json → Option GoogleAuto
  | Json.obj fields => (decodeOpt decodeBool (jsonField fields "_never_set")).map GoogleAuto.mk
  | _ => none

/-- Model of the serde `Deserialize` impl for `Account`. -/
def Account.fromJson : Json → Option Account
  | Json.obj fields => (decodeOpt GoogleAuto.fromJson (jsonField fields "googleAuto")).map Account.mk
  | _ => none

/-- Model of the serde `Deserialize` impl for `FileReference`. -/
def FileReference.fromJson : Json → Option FileReference
  | Json.obj fields => (decodeOpt decodeString (jsonField fields "gcsPath")).map FileReference.mk
  | _ => none

-- ## OAuth scopes and hub constants

/-- Rust enum `Scope` (api.rs:26). -/
inductive Scope : Type
  | CloudPlatform : Scope
  | CloudPlatformReadOnly : Scope
deriving Repr, DecidableEq

/-- Model of `impl AsRef<str> for Scope` (api.rs:34). -/
def Scope.as_ref : Scope → String
  | Scope.CloudPlatform => "https://www.googleapis.com/auth/cloud-platform"
  | Scope.CloudPlatformReadOnly => "https://www.googleapis.com/auth/cloud-platform.read-only"

/-- Default user agent of the hub, `Testing::new` (api.rs:132). -/
def defaultUserAgent : String := "google-api-rust-client/4.0.1"

/-- Default base url of the hub, `Testing::new` (api.rs:133). -/
def defaultBaseUrl : String := "https://testing.googleapis.com/"

-- ## HTTP requests and responses

/-- A parsed URL as produced by `url::Url::parse_with_params`: the path part
(after path-template substitution) and the query-string pairs appended to it.
-/
structure Url where
  path : String
  query : List (String × String)
deriving Repr, DecidableEq

/-- The transport request built inside the retry loop by
`hyper::Request::builder()`: method, URI, the headers set through
`.header(...)`, and the body. -/
structure HttpRequest where
  method : String
  uri : Url
  headers : List (String × String)
  body : String
deriving Repr, DecidableEq

/-- An HTTP response with its body already buffered as a string
(`client::get_body_as_string`). -/
structure HttpResponse where
  status : Nat
  body : String
deriving Repr, DecidableEq

/-- Model of `hyper::StatusCode::is_success`: status in `200..=299`. -/
def HttpResponse.isSuccess (r : HttpResponse) : Bool :=
  200 ≤ r.status && r.status < 300

/-- The request built for a body-bearing call (api.rs:1972-1979): user-agent
and bearer-authorization headers, then content-type `application/json` and a
content-length equal to the byte size of the serialized body. -/
def bodyRequest (method : String) (uri : Url) (userAgent : String) (bodyStr : String) (token : String) : HttpRequest :=
  { method := method
    uri := uri
    headers := [("user-agent", userAgent),
                ("authorization", "Bearer " ++ token),
                ("content-type", "application/json"),
                ("content-length", toString bodyStr.utf8ByteSize)]
    body := bodyStr }

/-- The request built for a bodyless call (api.rs:2233-2238): user-agent and
bearer-authorization headers only, with `hyper::body::Body::empty()`. -/
def emptyRequest (method : String) (uri : Url) (userAgent : String) (token : String) : HttpRequest :=
  { method := method
    uri := uri
    headers := [("user-agent", userAgent),
                ("authorization", "Bearer " ++ token)]
    body := "" }

-- ## Delegate decisions and error taxonomy

/-- Modelled from the spec: `client::Retry`, the delegate's retry-or-abort
decision with optional delay (the `client` module is outside `src/`; usage
`if let client::Retry::After(d) = dlg.http_error(&err)` fixes the shape).
Durations are modelled as natural numbers. -/
inductive Retry : Type
  | Abort : Retry
  | After : Nat → Retry
deriving Repr, DecidableEq

/-- Modelled from the spec: the variants of `client::Error` that the `doit`
pipeline produces (spec section 7; the `client` module is outside `src/`).
Token-provider and transport errors are modelled as strings. -/
inductive DoitErr : Type
  | FieldClash : String → DoitErr
  | MissingToken : String → DoitErr
  | HttpError : String → DoitErr
  | BadRequest : Json → DoitErr
  | Failure : HttpResponse → DoitErr
  | JsonDecodeError : String → String → DoitErr

/-- Events observable during one `doit` invocation: delegate notifications,
token-provider requests and transport requests, in program order. -/
inductive Ev : Type
  | begin : String → String → Ev
  | tokenRequest : List String → Ev
  | dlgTokenQuery : String → Ev
  | preRequest : Ev
  | request : HttpRequest → Ev
  | dlgHttpError : Ev
  | dlgHttpFailure : Ev
  | sleep : Nat → Ev
  | decodeFailure : String → String → Ev
  | finished : Bool → Ev
deriving Repr, DecidableEq

/-- External collaborators of one `doit` invocation, indexed by the loop
iteration (attempt) number where they may react differently per attempt:
the token provider (`hub.auth.token`), the transport (`client.request`),
the delegate's decision hooks (`token`, `http_error`, `http_failure`), and
the serde_json codec (generic parse, typed decode, and compact rendering of
the request body).  `T` is the typed response of the call. -/
structure Env (T : Type) where
  authToken : Nat → Except String String
  transport : Nat → Except String HttpResponse
  dlgToken : Nat → String → Option String
  dlgHttpError : Nat → String → Retry
  dlgHttpFailure : Nat → HttpResponse → Option Json → Retry
  parseJson : String → Option Json
  decode : String → Except String T
  render : Json → String

/-- Outcome of a single pass through the retry loop body: either a terminal
result or a delegate-requested retry after a delay. -/
inductive AttemptOut (T : Type) : Type
  | done : Except DoitErr (HttpResponse × T) → AttemptOut T
  | retryAfter : Nat → AttemptOut T

-- ## The retry loop (api.rs:1955-2031, identical shape in every call builder)

/-- One pass through the loop body after a bearer token is in hand
(api.rs:1968-2030): build the request, `pre_request`, issue it, then classify
the transport outcome exactly as the source does.  Returns the events of this
pass and its outcome.  Note that on the decode-error path the source notifies
`response_json_decode_error` and returns without signalling `finished`. -/
def doitAttemptWithToken (env : Env T) (mkReq : String → HttpRequest) (i : Nat) (token : String) :
    List Ev × AttemptOut T :=
  let req := mkReq token
  match env.transport i with
  | Except.error err =>
    match env.dlgHttpError i err with
    | Retry.After d => ([Ev.preRequest, Ev.request req, Ev.dlgHttpError], AttemptOut.retryAfter d)
    | Retry.Abort =>
      ([Ev.preRequest, Ev.request req, Ev.dlgHttpError, Ev.finished false],
       AttemptOut.done (Except.error (DoitErr.HttpError err)))
  | Except.ok res =>
    if res.isSuccess then
      match env.decode res.body with
      | Except.ok v =>
        ([Ev.preRequest, Ev.request req, Ev.finished true],
         AttemptOut.done (Except.ok (res, v)))
      | Except.error e =>
        ([Ev.preRequest, Ev.request req, Ev.decodeFailure res.body e],
         AttemptOut.done (Except.error (DoitErr.JsonDecodeError res.body e)))
    else
      let server_response := env.parseJson res.body
      match env.dlgHttpFailure i res server_response with
      | Retry.After d => ([Ev.preRequest, Ev.request req, Ev.dlgHttpFailure], AttemptOut.retryAfter d)
      | Retry.Abort =>
        match server_response with
        | some v =>
          ([Ev.preRequest, Ev.request req, Ev.dlgHttpFailure, Ev.finished false],
           AttemptOut.done (Except.error (DoitErr.BadRequest v)))
        | none =>
          ([Ev.preRequest, Ev.request req, Ev.dlgHttpFailure, Ev.finished false],
           AttemptOut.done (Except.error (DoitErr.Failure res)))

/-- One full pass through the loop body (api.rs:1956-2030): request a token
for the call's scope set; on provider failure consult `dlg.token` for a
substitute, aborting with `MissingToken` (and `finished(false)`) when none is
supplied. -/
def doitAttempt (env : Env T) (scopes : List String) (mkReq : String → HttpRequest) (i : Nat) :
    List Ev × AttemptOut T :=
  match env.authToken i with
  | Except.ok token =>
    let pr := doitAttemptWithToken env mkReq i token
    (Ev.tokenRequest scopes :: pr.1, pr.2)
  | Except.error err =>
    match env.dlgToken i err with
    | some token =>
      let pr := doitAttemptWithToken env mkReq i token
      (Ev.tokenRequest scopes :: Ev.dlgTokenQuery err :: pr.1, pr.2)
    | none =>
      ([Ev.tokenRequest scopes, Ev.dlgTokenQuery err, Ev.finished false],
       AttemptOut.done (Except.error (DoitErr.MissingToken err)))

/-- The retry loop `loop { ... }` as a fuel-indexed interpreter: runs loop
passes, sleeping the delegate-supplied delay between retries, until a pass
terminates or the fuel is exhausted (`none` = still looping, which the source
would continue forever). -/
def doitLoop (env : Env T) (scopes : List String) (mkReq : String → HttpRequest) :
    Nat → Nat → List Ev × Option (Except DoitErr (HttpResponse × T))
  | 0, _ => ([], none)
  | fuel + 1, i =>
    match doitAttempt env scopes mkReq i with
    | (evs, AttemptOut.done r) => (evs, some r)
    | (evs, AttemptOut.retryAfter d) =>
      let pr := doitLoop env scopes mkReq fuel (i + 1)
      (evs ++ Ev.sleep d :: pr.1, pr.2)

-- ## Call builders

/-- Call builder `ApplicationDetailServiceGetApkDetailCall` (api.rs:1888):
the caller-settable state consumed by `doit` (a `FileReference` request body,
the additional query parameters, and the scope set; the hub's client and
authenticator live in `Env`). -/
structure ApplicationDetailServiceGetApkDetailCall where
  _request : FileReference
  _additional_params : List (String × String)
  _scopes : List String
deriving Repr, DecidableEq

/-- Default-scope insertion (api.rs:1935-1937): when no scope was added via
`add_scope`, the `CloudPlatform` scope is inserted before the first token
request. -/
def ApplicationDetailServiceGetApkDetailCall.effScopes
    (self : ApplicationDetailServiceGetApkDetailCall) : List String :=
  if self._scopes.isEmpty then [Scope.CloudPlatform.as_ref] else self._scopes

/-- The URL of the `getApkDetails` call (api.rs:1934,1940): base url plus the
method path, with the additional parameters and `alt=json` as the query. -/
def ApplicationDetailServiceGetApkDetailCall.uri
    (self : ApplicationDetailServiceGetApkDetailCall) : Url :=
  { path := defaultBaseUrl ++ "v1/applicationDetailService/getApkDetails"
    query := self._additional_params ++ [("alt", "json")] }

/-- The serialized request body (api.rs:1943-1950): serde serialization of
the `FileReference`, null removal, then rendering by the JSON codec. -/
def ApplicationDetailServiceGetApkDetailCall.requestBody
    (self : ApplicationDetailServiceGetApkDetailCall) (render : Json → String) : String :=
  render (remove_json_null_values (FileReference.toJson self._request))

/-- Model of `ApplicationDetailServiceGetApkDetailCall::doit` (api.rs:1910):
`begin`, reserved-parameter clash check over `["alt"]`, query assembly with
`alt=json` appended, default-scope insertion when the scope set is empty,
request-body serialization with null removal, then the retry loop issuing
POST body-bearing requests. -/
def ApplicationDetailServiceGetApkDetailCall.doit
    (self : ApplicationDetailServiceGetApkDetailCall) (env : Env T) (fuel : Nat) :
    List Ev × Option (Except DoitErr (HttpResponse × T)) :=
  let ev0 := Ev.begin "testing.applicationDetailService.getApkDetails" "POST"
  match ["alt"].find? (fun f => self._additional_params.any (fun p => p.1 = f)) with
  | some f => ([ev0, Ev.finished false], some (Except.error (DoitErr.FieldClash f)))
  | none =>
    let pr := doitLoop env self.effScopes
      (bodyRequest "POST" self.uri defaultUserAgent (self.requestBody env.render)) fuel 0
    (ev0 :: pr.1, pr.2)

/-- Path-template substitution (api.rs:2191-2200): for each
`(find_this, param_name)` pair, replace `find_this` in the URL by the value
of the first parameter named `param_name`. -/
def substPathParams (subs : List (String × String)) (params : List (String × String)) (url : String) : String :=
  subs.foldl (fun u s =>
    match params.find? (fun p => p.1 = s.2) with
    | some p => u.replace s.1 p.2
    | none => u) url

/-- Index collection for path-parameter removal (api.rs:2202-2207): the
position of each named parameter in the original parameter list. -/
def indicesForRemoval (params : List (String × String)) (names : List String) : List Nat :=
  names.filterMap (fun n => params.findIdx? (fun p => p.1 = n))

/-- Sequential removal by index (api.rs:2208-2210). -/
def removeIndices (params : List (String × String)) (idxs : List Nat) : List (String × String) :=
  idxs.foldl (fun ps i => ps.eraseIdx i) params

/-- Call builder `ProjectTestMatriceCancelCall` (api.rs:2137): a bodyless
POST call with two required path parameters. -/
structure ProjectTestMatriceCancelCall where
  _project_id : String
  _test_matrix_id : String
  _additional_params : List (String × String)
  _scopes : List String
deriving Repr, DecidableEq

/-- Default-scope insertion for the cancel call (api.rs:2187-2189). -/
def ProjectTestMatriceCancelCall.effScopes
    (self : ProjectTestMatriceCancelCall) : List String :=
  if self._scopes.isEmpty then [Scope.CloudPlatform.as_ref] else self._scopes

/-- The parameter list of the cancel call before path substitution
(api.rs:2171-2184): path parameters, additional parameters, then `alt=json`.
-/
def ProjectTestMatriceCancelCall.params0
    (self : ProjectTestMatriceCancelCall) : List (String × String) :=
  [("projectId", self._project_id), ("testMatrixId", self._test_matrix_id)]
    ++ self._additional_params ++ [("alt", "json")]

/-- The URL of the cancel call (api.rs:2186-2213): path-template substitution
into the base url, and the query after the path parameters are removed. -/
def ProjectTestMatriceCancelCall.uri
    (self : ProjectTestMatriceCancelCall) : Url :=
  { path := substPathParams [("{projectId}", "projectId"), ("{testMatrixId}", "testMatrixId")]
      self.params0
      (defaultBaseUrl ++ "v1/projects/{projectId}/testMatrices/{testMatrixId}:cancel")
    query := removeIndices self.params0 (indicesForRemoval self.params0 ["testMatrixId", "projectId"]) }

/-- Model of `ProjectTestMatriceCancelCall::doit` (api.rs:2160): `begin`,
clash check over `["alt", "projectId", "testMatrixId"]`, query assembly,
default-scope insertion, path-template substitution and removal of the
path parameters from the query, then the retry loop issuing bodyless POST
requests. -/
def ProjectTestMatriceCancelCall.doit
    (self : ProjectTestMatriceCancelCall) (env : Env T) (fuel : Nat) :
    List Ev × Option (Except DoitErr (HttpResponse × T)) :=
  let ev0 := Ev.begin "testing.projects.testMatrices.cancel" "POST"
  match ["alt", "projectId", "testMatrixId"].find? (fun f => self._additional_params.any (fun p => p.1 = f)) with
  | some f => ([ev0, Ev.finished false], some (Except.error (DoitErr.FieldClash f)))
  | none =>
    let pr := doitLoop env self.effScopes (emptyRequest "POST" self.uri defaultUserAgent) fuel 0
    (ev0 :: pr.1, pr.2)

-- ## Trace observations

/-- Event classifier: a `finished(true)` delegate notification. -/
def isFinishedTrue : Ev → Bool
  | Ev.finished true => true
  | _ => false

/-- Event classifier: a `finished(false)` delegate notification. -/
def isFinishedFalse : Ev → Bool
  | Ev.finished false => true
  | _ => false

/-- Event classifier: any `finished` delegate notification. -/
def isFinishedEv : Ev → Bool
  | Ev.finished _ => true
  | _ => false

/-- Event classifier: a transport request (`client.request`). -/
def isRequestEv : Ev → Bool
  | Ev.request _ => true
  | _ => false

/-- Event classifier: a token-provider request (`hub.auth.token`). -/
def isTokenRequestEv : Ev → Bool
  | Ev.tokenRequest _ => true
  | _ => false

/-- Event classifier: a `response_json_decode_error` delegate notification. -/
def isDecodeFailureEv : Ev → Bool
  | Ev.decodeFailure _ _ => true
  | _ => false

/-- Result classifier: successful outcome. -/
def isOkResult : Except DoitErr (HttpResponse × T) → Bool
  | Except.ok _ => true
  | _ => false

/-- Result classifier: `JsonDecodeError` outcome. -/
def isJsonDecodeErrorResult : Except DoitErr (HttpResponse × T) → Bool
  | Except.error (DoitErr.JsonDecodeError _ _) => true
  | _ => false

-- ## Concrete fixtures

/-- A `getApkDetails` call with no additional parameters and no scopes. -/
def simpleGetCall : ApplicationDetailServiceGetApkDetailCall :=
  { _request := { gcs_path := none }, _additional_params := [], _scopes := [] }

/-- A `getApkDetails` call whose caller supplied the reserved parameter
`alt` via `param()`. -/
def clashGetCall : ApplicationDetailServiceGetApkDetailCall :=
  { _request := { gcs_path := none }, _additional_params := [("alt", "media")], _scopes := [] }

/-- A `testMatrices.cancel` call whose caller supplied the reserved path
parameter `projectId` via `param()`. -/
def clashCancelCall : ProjectTestMatriceCancelCall :=
  { _project_id := "p", _test_matrix_id := "m",
    _additional_params := [("projectId", "other")], _scopes := [] }

/-- Baseline environment: token provider succeeds, transport returns a 2xx
response whose body decodes to `7`, delegate never retries. -/
def baseEnv : Env Nat :=
  { authToken := fun _ => Except.ok "tok"
    transport := fun _ => Except.ok { status := 200, body := "7" }
    dlgToken := fun _ _ => none
    dlgHttpError := fun _ _ => Retry.Abort
    dlgHttpFailure := fun _ _ _ => Retry.Abort
    parseJson := fun _ => none
    decode := fun _ => Except.ok 7
    render := fun _ => "" }

/-- Environment for the C1 counterexample: success HTTP status but the body
fails to parse as the expected typed response. -/
def decodeFailEnv : Env Nat :=
  { baseEnv with
    transport := fun _ => Except.ok { status := 200, body := "nonsense" }
    decode := fun _ => Except.error "expected struct GetApkDetailsResponse" }

/-- Environment whose transport always fails and whose delegate always asks
for a retry via `transport_failure`. -/
def alwaysRetryTransportEnv : Env Nat :=
  { baseEnv with
    transport := fun _ => Except.error "connection reset"
    dlgHttpError := fun _ _ => Retry.After 1 }

/-- Environment whose transport always returns a non-success status and whose
delegate always asks for a retry via `http_failure`. -/
def alwaysRetryStatusEnv : Env Nat :=
  { baseEnv with
    transport := fun _ => Except.ok { status := 503, body := "unavailable" }
    dlgHttpFailure := fun _ _ _ => Retry.After 1 }

/-- Environment retrying the first `n` transport errors then aborting, used
to witness the exact-retry-count theorem. -/
def retryTwiceEnv : Env Nat :=
  { baseEnv with
    transport := fun _ => Except.error "connection reset"
    dlgHttpError := fun i _ => if i < 2 then Retry.After 5 else Retry.Abort }

/-- Environment for the non-success-status classification: a 404 whose body
parses as a generic JSON value. -/
def badRequestEnv : Env Nat :=
  { baseEnv with
    transport := fun _ => Except.ok { status := 404, body := "notFound" }
    parseJson := fun s => if s = "notFound" then some (Json.str "notFound") else none }

/-- Environment for the non-success-status classification: a 500 whose body
does not parse as JSON. -/
def failureEnv : Env Nat :=
  { baseEnv with
    transport := fun _ => Except.ok { status := 500, body := "<html>" } }

/-- Environment whose token provider fails and whose delegate supplies a
substitute token. -/
def substituteTokenEnv : Env Nat :=
  { baseEnv with
    authToken := fun _ => Except.error "expired"
    dlgToken := fun _ _ => some "subst" }

/-- Environment whose token provider fails and whose delegate supplies no
substitute token. -/
def missingTokenEnv : Env Nat :=
  { baseEnv with
    authToken := fun _ => Except.error "expired" }

/-- A `testMatrices.cancel` call with no additional parameters and no
scopes. -/
def simpleCancelCall : ProjectTestMatriceCancelCall :=
  { _project_id := "p", _test_matrix_id := "m", _additional_params := [], _scopes := [] }

/-- The body-bearing request issued by `simpleGetCall.doit baseEnv 1`. -/
def witnessGetReq : HttpRequest :=
  bodyRequest "POST" simpleGetCall.uri defaultUserAgent "" "tok"

/-- The bodyless request issued by `simpleCancelCall.doit baseEnv 1`. -/
def witnessCancelReq : HttpRequest :=
  emptyRequest "POST" simpleCancelCall.uri defaultUserAgent "tok"

/-- The finished/decode-failure counting discipline of a terminal outcome:
`finished(true)` exactly on success, `finished(false)` exactly on the
non-decode error paths, and one `decode_failure` notification exactly on the
`JsonDecodeError` path (where no `finished` is signalled at all). -/
def finishedCountsOk (evs : List Ev) (r : Except DoitErr (HttpResponse × T)) : Prop :=
  evs.countP isFinishedTrue = (if isOkResult r then 1 else 0) ∧
  evs.countP isFinishedFalse = (if isOkResult r || isJsonDecodeErrorResult r then 0 else 1) ∧
  evs.countP isDecodeFailureEv = (if isJsonDecodeErrorResult r then 1 else 0)

/-- A trace segment containing no `finished` and no `decode_failure`
notification (retried passes are silent). -/
def quietCounts (evs : List Ev) : Prop :=
  evs.countP isFinishedTrue = 0 ∧ evs.countP isFinishedFalse = 0 ∧
  evs.countP isDecodeFailureEv = 0

/-- Counting discipline of a single loop pass. -/
def attemptCountsOk : List Ev × AttemptOut T → Prop
  | (evs, AttemptOut.retryAfter _) => quietCounts evs
  | (evs, AttemptOut.done r) => finishedCountsOk evs r

/-- Counting discipline of the whole loop: quiet while still retrying,
classified once terminal. -/
def loopCountsOk : List Ev × Option (Except DoitErr (HttpResponse × T)) → Prop
  | (evs, none) => quietCounts evs
  | (evs, some r) => finishedCountsOk evs r

-- ## Helper lemmas about one loop pass

theorem doitAttemptWithToken_counts {T : Type} (env : Env T) (mkReq : String → HttpRequest)
    (i : Nat) (tok : String) :
    attemptCountsOk (doitAttemptWithToken env mkReq i tok) := by
  unfold doitAttemptWithToken
  cases ht : env.transport i with
  | error err =>
    cases hd : env.dlgHttpError i err <;>
      simp [ht, hd, attemptCountsOk, quietCounts, finishedCountsOk,
        isOkResult, isJsonDecodeErrorResult, List.countP_cons, List.countP_nil,
        isFinishedTrue, isFinishedFalse, isDecodeFailureEv]
  | ok res =>
    cases hs : res.isSuccess with
    | true =>
      cases hdec : env.decode res.body <;>
        simp [ht, hs, hdec, attemptCountsOk, quietCounts, finishedCountsOk,
          isOkResult, isJsonDecodeErrorResult, List.countP_cons, List.countP_nil,
          isFinishedTrue, isFinishedFalse, isDecodeFailureEv]
    | false =>
      cases hp : env.dlgHttpFailure i res (env.parseJson res.body) with
      | After d =>
        simp [ht, hs, hp, attemptCountsOk, quietCounts, List.countP_cons, List.countP_nil,
          isFinishedTrue, isFinishedFalse, isDecodeFailureEv]
      | Abort =>
        cases hv : env.parseJson res.body <;>
          rw [hv] at hp <;>
          simp [ht, hs, hp, hv, attemptCountsOk, quietCounts, finishedCountsOk,
            isOkResult, isJsonDecodeErrorResult, List.countP_cons, List.countP_nil,
            isFinishedTrue, isFinishedFalse, isDecodeFailureEv]

theorem doitAttempt_counts {T : Type} (env : Env T) (scopes : List String)
    (mkReq : String → HttpRequest) (i : Nat) :
    attemptCountsOk (doitAttempt env scopes mkReq i) := by
  unfold doitAttempt
  cases ha : env.authToken i with
  | error err =>
    cases hd : env.dlgToken i err with
    | none =>
      simp [ha, hd, attemptCountsOk, finishedCountsOk, isOkResult, isJsonDecodeErrorResult,
        List.countP_cons, List.countP_nil, isFinishedTrue, isFinishedFalse, isDecodeFailureEv]
    | some tok =>
      have h := doitAttemptWithToken_counts env mkReq i tok
      rcases hw : doitAttemptWithToken env mkReq i tok with ⟨evs, out⟩
      rw [hw] at h
      cases out <;>
        simp_all [ha, hd, hw, attemptCountsOk, quietCounts, finishedCountsOk,
          List.countP_cons, isFinishedTrue, isFinishedFalse, isDecodeFailureEv]
  | ok tok =>
    have h := doitAttemptWithToken_counts env mkReq i tok
    rcases hw : doitAttemptWithToken env mkReq i tok with ⟨evs, out⟩
    rw [hw] at h
    cases out <;>
      simp_all [ha, hw, attemptCountsOk, quietCounts, finishedCountsOk,
        List.countP_cons, isFinishedTrue, isFinishedFalse, isDecodeFailureEv]

theorem doitLoop_counts {T : Type} (env : Env T) (scopes : List String)
    (mkReq : String → HttpRequest) :
    ∀ fuel i, loopCountsOk (doitLoop env scopes mkReq fuel i) := by
  intro fuel
  induction fuel with
  | zero =>
    intro i
    simp [doitLoop, loopCountsOk, quietCounts]
  | succ n ih =>
    intro i
    have h := doitAttempt_counts env scopes mkReq i
    rcases hA : doitAttempt env scopes mkReq i with ⟨evs, out⟩
    rw [hA] at h
    cases out with
    | done r =>
      simpa [doitLoop, hA, loopCountsOk] using h
    | retryAfter d =>
      have hrec := ih (i + 1)
      rcases hL : doitLoop env scopes mkReq n (i + 1) with ⟨evs2, r2⟩
      rw [hL] at hrec
      obtain ⟨q1, q2, q3⟩ := h
      cases r2 with
      | none =>
        obtain ⟨p1, p2, p3⟩ := hrec
        simp [doitLoop, hA, hL, loopCountsOk, quietCounts, List.countP_append,
          List.countP_cons, isFinishedTrue, isFinishedFalse, isDecodeFailureEv,
          q1, q2, q3, p1, p2, p3]
      | some r =>
        obtain ⟨p1, p2, p3⟩ := hrec
        simp [doitLoop, hA, hL, loopCountsOk, finishedCountsOk, List.countP_append,
          List.countP_cons, isFinishedTrue, isFinishedFalse, isDecodeFailureEv,
          q1, q2, q3, p1, p2, p3]

theorem doitAttemptWithToken_evShapes {T : Type} (env : Env T) (mkReq : String → HttpRequest)
    (i : Nat) (tok : String) :
    (∀ req, Ev.request req ∈ (doitAttemptWithToken env mkReq i tok).1 → req = mkReq tok) ∧
    (∀ s, Ev.tokenRequest s ∈ (doitAttemptWithToken env mkReq i tok).1 → False) := by
  unfold doitAttemptWithToken
  cases ht : env.transport i with
  | error err =>
    cases hd : env.dlgHttpError i err <;> simp [ht, hd]
  | ok res =>
    cases hs : res.isSuccess with
    | true =>
      cases hdec : env.decode res.body <;> simp [ht, hs, hdec]
    | false =>
      cases hp : env.dlgHttpFailure i res (env.parseJson res.body) with
      | After d => simp [ht, hs, hp]
      | Abort =>
        cases hv : env.parseJson res.body <;>
          rw [hv] at hp <;> simp [ht, hs, hp, hv]

theorem doitAttempt_evShapes {T : Type} (env : Env T) (scopes : List String)
    (mkReq : String → HttpRequest) (i : Nat) :
    (∀ req, Ev.request req ∈ (doitAttempt env scopes mkReq i).1 → ∃ tok, req = mkReq tok) ∧
    (∀ s, Ev.tokenRequest s ∈ (doitAttempt env scopes mkReq i).1 → s = scopes) := by
  unfold doitAttempt
  cases ha : env.authToken i with
  | error err =>
    cases hd : env.dlgToken i err with
    | none => simp [ha, hd]
    | some tok =>
      have h := doitAttemptWithToken_evShapes env mkReq i tok
      constructor
      · intro req hreq
        simp [ha, hd] at hreq
        exact ⟨tok, h.1 req hreq⟩
      · intro s hs
        simp [ha, hd] at hs
        rcases hs with h1 | h1
        · exact h1
        · exact absurd h1 (fun hx => h.2 s hx)
  | ok tok =>
    have h := doitAttemptWithToken_evShapes env mkReq i tok
    constructor
    · intro req hreq
      simp [ha] at hreq
      exact ⟨tok, h.1 req hreq⟩
    · intro s hs
      simp [ha] at hs
      rcases hs with h1 | h1
      · exact h1
      · exact absurd h1 (fun hx => h.2 s hx)

theorem doitLoop_evShapes {T : Type} (env : Env T) (scopes : List String)
    (mkReq : String → HttpRequest) :
    ∀ fuel i,
      (∀ req, Ev.request req ∈ (doitLoop env scopes mkReq fuel i).1 → ∃ tok, req = mkReq tok) ∧
      (∀ s, Ev.tokenRequest s ∈ (doitLoop env scopes mkReq fuel i).1 → s = scopes) := by
  intro fuel
  induction fuel with
  | zero =>
    intro i
    simp [doitLoop]
  | succ n ih =>
    intro i
    have h := doitAttempt_evShapes env scopes mkReq i
    rcases hA : doitAttempt env scopes mkReq i with ⟨evs, out⟩
    rw [hA] at h
    cases out with
    | done r =>
      simpa [doitLoop, hA] using h
    | retryAfter d =>
      have hrec := ih (i + 1)
      constructor
      · intro req hreq
        simp [doitLoop, hA, List.mem_append, List.mem_cons] at hreq
        rcases hreq with h1 | h1
        · exact h.1 req h1
        · exact hrec.1 req h1
      · intro s hs
        simp [doitLoop, hA, List.mem_append, List.mem_cons] at hs
        rcases hs with h1 | h1
        · exact h.2 s h1
        · exact hrec.2 s h1

theorem doitLoop_none_of_always_retry {T : Type} (env : Env T) (scopes : List String)
    (mkReq : String → HttpRequest)
    (h : ∀ j, ∃ d, (doitAttempt env scopes mkReq j).2 = AttemptOut.retryAfter d) :
    ∀ fuel i, (doitLoop env scopes mkReq fuel i).2 = none := by
  intro fuel
  induction fuel with
  | zero =>
    intro i
    simp [doitLoop]
  | succ n ih =>
    intro i
    obtain ⟨d, hd⟩ := h i
    rcases hA : doitAttempt env scopes mkReq i with ⟨evs, out⟩
    rw [hA] at hd
    simp at hd
    subst hd
    simp [doitLoop, hA, ih (i + 1)]

theorem doitLoop_retry_exact {T : Type} (env : Env T) (scopes : List String)
    (mkReq : String → HttpRequest) (N : Nat) (e : String) (tok : Nat → String) (d : Nat → Nat)
    (htok : ∀ j, env.authToken j = Except.ok (tok j))
    (hT : ∀ j, env.transport j = Except.error e)
    (hR : ∀ j, j < N → env.dlgHttpError j e = Retry.After (d j))
    (hA : env.dlgHttpError N e = Retry.Abort) :
    ∀ k i, i + k = N → ∀ fuel, k + 1 ≤ fuel →
      (doitLoop env scopes mkReq fuel i).2 = some (Except.error (DoitErr.HttpError e)) ∧
      (doitLoop env scopes mkReq fuel i).1.countP isRequestEv = k + 1 ∧
      (doitLoop env scopes mkReq fuel i).1.countP isTokenRequestEv = k + 1 := by
  intro k
  induction k with
  | zero =>
    intro i hi fuel hf
    cases fuel with
    | zero => omega
    | succ m =>
      have hiN : i = N := by omega
      subst hiN
      have hAtt : doitAttempt env scopes mkReq i =
          ([Ev.tokenRequest scopes, Ev.preRequest, Ev.request (mkReq (tok i)),
            Ev.dlgHttpError, Ev.finished false],
           AttemptOut.done (Except.error (DoitErr.HttpError e))) := by
        unfold doitAttempt doitAttemptWithToken
        simp [htok i, hT i, hA]
      simp [doitLoop, hAtt, List.countP_cons, List.countP_nil, isRequestEv, isTokenRequestEv]
  | succ k ih =>
    intro i hi fuel hf
    cases fuel with
    | zero => omega
    | succ m =>
      have hiN : i < N := by omega
      have hAtt : doitAttempt env scopes mkReq i =
          ([Ev.tokenRequest scopes, Ev.preRequest, Ev.request (mkReq (tok i)), Ev.dlgHttpError],
           AttemptOut.retryAfter (d i)) := by
        unfold doitAttempt doitAttemptWithToken
        simp [htok i, hT i, hR i hiN]
      have hrec := ih (i + 1) (by omega) m (by omega)
      rcases hL : doitLoop env scopes mkReq m (i + 1) with ⟨evs2, r2⟩
      rw [hL] at hrec
      obtain ⟨hr1, hr2, hr3⟩ := hrec
      refine ⟨?_, ?_, ?_⟩ <;>
        simp [doitLoop, hAtt, hL, List.countP_append, List.countP_cons,
          isRequestEv, isTokenRequestEv, hr1, hr2, hr3]

-- ## Unfolding lemmas for the two call builders

theorem getApkDetails_doit_noclash {T : Type} (env : Env T)
    (self : ApplicationDetailServiceGetApkDetailCall) (fuel : Nat)
    (hnc : self._additional_params.any (fun p => p.1 = "alt") = false) :
    self.doit env fuel =
      (Ev.begin "testing.applicationDetailService.getApkDetails" "POST" ::
         (doitLoop env self.effScopes
           (bodyRequest "POST" self.uri defaultUserAgent (self.requestBody env.render)) fuel 0).1,
       (doitLoop env self.effScopes
           (bodyRequest "POST" self.uri defaultUserAgent (self.requestBody env.render)) fuel 0).2) := by
  unfold ApplicationDetailServiceGetApkDetailCall.doit
  simp [List.find?, hnc]

theorem getApkDetails_doit_clash {T : Type} (env : Env T)
    (self : ApplicationDetailServiceGetApkDetailCall) (fuel : Nat)
    (hc : self._additional_params.any (fun p => p.1 = "alt") = true) :
    self.doit env fuel =
      ([Ev.begin "testing.applicationDetailService.getApkDetails" "POST", Ev.finished false],
       some (Except.error (DoitErr.FieldClash "alt"))) := by
  unfold ApplicationDetailServiceGetApkDetailCall.doit
  simp [List.find?, hc]

theorem cancel_doit_noclash {T : Type} (env : Env T)
    (self : ProjectTestMatriceCancelCall) (fuel : Nat)
    (h1 : self._additional_params.any (fun p => p.1 = "alt") = false)
    (h2 : self._additional_params.any (fun p => p.1 = "projectId") = false)
    (h3 : self._additional_params.any (fun p => p.1 = "testMatrixId") = false) :
    self.doit env fuel =
      (Ev.begin "testing.projects.testMatrices.cancel" "POST" ::
         (doitLoop env self.effScopes (emptyRequest "POST" self.uri defaultUserAgent) fuel 0).1,
       (doitLoop env self.effScopes (emptyRequest "POST" self.uri defaultUserAgent) fuel 0).2) := by
  unfold ProjectTestMatriceCancelCall.doit
  simp [List.find?, h1, h2, h3]

theorem cancel_doit_clash {T : Type} (env : Env T)
    (self : ProjectTestMatriceCancelCall) (fuel : Nat)
    (hc : (["alt", "projectId", "testMatrixId"].any
        (fun f => self._additional_params.any (fun p => p.1 = f))) = true) :
    ∃ f, (["alt", "projectId", "testMatrixId"].find?
        (fun f => self._additional_params.any (fun p => p.1 = f))) = some f ∧
      self.doit env fuel =
        ([Ev.begin "testing.projects.testMatrices.cancel" "POST", Ev.finished false],
         some (Except.error (DoitErr.FieldClash f))) := by
  have hs : (["alt", "projectId", "testMatrixId"].find?
      (fun f => self._additional_params.any (fun p => p.1 = f))).isSome := by
    rw [List.find?_isSome]
    simpa [List.any_eq_true] using hc
  obtain ⟨f, hf⟩ := Option.isSome_iff_exists.mp hs
  refine ⟨f, hf, ?_⟩
  unfold ProjectTestMatriceCancelCall.doit
  simp [hf]

-- ## Claim theorems

/-- C9: serializing a request value the way the pipeline does (serde
serialization followed by removal of JSON null values, api.rs:1943-1950) and
then deserializing the result back to the same request type reconstructs a
value equal to the original, independent of any transport.  Stated for the
`FileReference` request value the cited `doit` serializes and for the cited
`Account` schema. -/
theorem request_value_roundtrip :
    (∀ r : FileReference,
       FileReference.fromJson (remove_json_null_values (FileReference.toJson r)) = some r) ∧
    (∀ a : Account,
       Account.fromJson (remove_json_null_values (Account.toJson a)) = some a) := by
  constructor
  · intro r
    cases r with
    | mk g => cases g <;> rfl
  · intro a
    cases a with
    | mk g =>
      cases g with
      | none => rfl
      | some ga =>
        cases ga with
        | mk ns => cases ns <;> rfl

/-- C8: the retry loop enforces no retry-count cap of its own: with a
delegate whose `transport_failure` (resp. `http_failure`) hook always
returns a retry-after duration and a transport that always fails (resp.
always returns a non-success status), `doit` never terminates — the
fuel-indexed interpreter returns "still looping" for every fuel. -/
theorem unbounded_retry_no_termination :
    (∀ fuel, (simpleGetCall.doit alwaysRetryTransportEnv fuel).2 = none) ∧
    (∀ fuel, (simpleGetCall.doit alwaysRetryStatusEnv fuel).2 = none) := by
  constructor <;> intro fuel
  · rw [getApkDetails_doit_noclash alwaysRetryTransportEnv simpleGetCall fuel rfl]
    exact doitLoop_none_of_always_retry alwaysRetryTransportEnv simpleGetCall.effScopes
      (bodyRequest "POST" simpleGetCall.uri defaultUserAgent
        (simpleGetCall.requestBody alwaysRetryTransportEnv.render))
      (fun j => ⟨1, rfl⟩) fuel 0
  · rw [getApkDetails_doit_noclash alwaysRetryStatusEnv simpleGetCall fuel rfl]
    exact doitLoop_none_of_always_retry alwaysRetryStatusEnv simpleGetCall.effScopes
      (bodyRequest "POST" simpleGetCall.uri defaultUserAgent
        (simpleGetCall.requestBody alwaysRetryStatusEnv.render))
      (fun j => ⟨1, rfl⟩) fuel 0

/-- C1 counterexample: on the `JsonDecodeError` path (success HTTP status,
body fails the typed decode) the pipeline notifies
`response_json_decode_error` and returns WITHOUT invoking `finished` at all
(api.rs:2018-2023), so `finished` is not invoked exactly once and
`finished(false)` is not signalled before returning the error. -/
theorem finished_skipped_on_decode_error_cex :
    (simpleGetCall.doit decodeFailEnv 1).2 =
      some (Except.error (DoitErr.JsonDecodeError "nonsense" "expected struct GetApkDetailsResponse")) ∧
    (simpleGetCall.doit decodeFailEnv 1).1.countP isFinishedEv = 0 := by
  exact ⟨rfl, rfl⟩

/-- C1 (amended): on every terminal path except `JsonDecodeError`, the
delegate's `finished(bool)` hook is invoked exactly once, with argument
`true` iff the invocation returns success; on the `JsonDecodeError` path the
delegate is notified via `decode_failure` exactly once and no `finished`
signal is emitted at all before the error is returned. -/
theorem finished_signal_discipline {T : Type} (env : Env T)
    (self : ApplicationDetailServiceGetApkDetailCall) (fuel : Nat)
    (evs : List Ev) (r : Except DoitErr (HttpResponse × T))
    (h : self.doit env fuel = (evs, some r)) :
    evs.countP isFinishedTrue = (if isOkResult r then 1 else 0) ∧
    evs.countP isFinishedFalse = (if isOkResult r || isJsonDecodeErrorResult r then 0 else 1) ∧
    evs.countP isDecodeFailureEv = (if isJsonDecodeErrorResult r then 1 else 0) := by
  cases hc : self._additional_params.any (fun p => p.1 = "alt") with
  | true =>
    rw [getApkDetails_doit_clash env self fuel hc] at h
    simp only [Prod.mk.injEq] at h
    obtain ⟨h1, h2⟩ := h
    subst h1
    cases h2
    simp [List.countP_cons, List.countP_nil, isFinishedTrue, isFinishedFalse,
      isDecodeFailureEv, isOkResult, isJsonDecodeErrorResult]
  | false =>
    rw [getApkDetails_doit_noclash env self fuel hc] at h
    have hl := doitLoop_counts env self.effScopes
      (bodyRequest "POST" self.uri defaultUserAgent (self.requestBody env.render)) fuel 0
    rcases hL : doitLoop env self.effScopes
        (bodyRequest "POST" self.uri defaultUserAgent (self.requestBody env.render)) fuel 0 with ⟨evs2, r2⟩
    rw [hL] at hl h
    simp only [Prod.mk.injEq] at h
    obtain ⟨h1, h2⟩ := h
    subst h1
    cases r2 with
    | none => cases h2
    | some r0 =>
      have h3 : r0 = r := by injection h2
      subst h3
      obtain ⟨p1, p2, p3⟩ := hl
      simp [List.countP_cons, isFinishedTrue, isFinishedFalse, isDecodeFailureEv, p1, p2, p3]

/-- Witness for the amended C1 theorem on the success path. -/
theorem finished_signal_discipline_witness :
    (simpleGetCall.doit baseEnv 1).2 = some (Except.ok ({ status := 200, body := "7" }, 7)) ∧
    (simpleGetCall.doit baseEnv 1).1.countP isFinishedTrue = 1 ∧
    (simpleGetCall.doit baseEnv 1).1.countP isFinishedFalse = 0 ∧
    (simpleGetCall.doit baseEnv 1).1.countP isDecodeFailureEv = 0 := by
  refine ⟨rfl, ?_⟩
  have h := finished_signal_discipline baseEnv simpleGetCall 1
    (simpleGetCall.doit baseEnv 1).1
    (Except.ok ({ status := 200, body := "7" }, 7)) rfl
  simpa [isOkResult, isJsonDecodeErrorResult] using h

/-- C2: if the delegate's transport-failure hook returns a retry-after
duration on the first `N` transport errors and then no retry, `doit`
performs exactly `N` retries (`N + 1` transport attempts) before returning
`HttpError`, and a fresh bearer token is requested from the token provider
once per loop iteration, never cached across retries (`N + 1` token
requests). -/
theorem transport_retry_count_exact {T : Type} (env : Env T)
    (self : ApplicationDetailServiceGetApkDetailCall)
    (N : Nat) (e : String) (tok : Nat → String) (d : Nat → Nat) (fuel : Nat)
    (hnc : self._additional_params.any (fun p => p.1 = "alt") = false)
    (htok : ∀ j, env.authToken j = Except.ok (tok j))
    (hT : ∀ j, env.transport j = Except.error e)
    (hR : ∀ j, j < N → env.dlgHttpError j e = Retry.After (d j))
    (hA : env.dlgHttpError N e = Retry.Abort)
    (hf : N + 1 ≤ fuel) :
    (self.doit env fuel).2 = some (Except.error (DoitErr.HttpError e)) ∧
    (self.doit env fuel).1.countP isRequestEv = N + 1 ∧
    (self.doit env fuel).1.countP isTokenRequestEv = N + 1 := by
  have hl := doitLoop_retry_exact env self.effScopes
    (bodyRequest "POST" self.uri defaultUserAgent (self.requestBody env.render))
    N e tok d htok hT hR hA N 0 (by omega) fuel hf
  rw [getApkDetails_doit_noclash env self fuel hnc]
  refine ⟨?_, ?_, ?_⟩ <;>
    simp [List.countP_cons, isRequestEv, isTokenRequestEv, hl.1, hl.2.1, hl.2.2]

/-- Witness for the exact-retry-count theorem: two retries then abort. -/
theorem transport_retry_count_exact_witness :
    (simpleGetCall.doit retryTwiceEnv 3).2 =
      some (Except.error (DoitErr.HttpError "connection reset")) ∧
    (simpleGetCall.doit retryTwiceEnv 3).1.countP isRequestEv = 3 ∧
    (simpleGetCall.doit retryTwiceEnv 3).1.countP isTokenRequestEv = 3 := by
  exact transport_retry_count_exact retryTwiceEnv simpleGetCall 2 "connection reset"
    (fun _ => "tok") (fun _ => 5) 3 rfl (fun j => rfl) (fun j => rfl)
    (fun j hj => by simp [retryTwiceEnv, hj]) (by simp [retryTwiceEnv]) (by omega)

/-- C3: a caller-supplied additional parameter whose name equals a reserved
parameter of the call (`alt` for `getApkDetails`; `alt`, `projectId` or
`testMatrixId` for `testMatrices.cancel`) makes `doit` return
`FieldClash(name)` and signal `finished(false)` immediately, before any
token fetch and before any transport request (zero transport invocations in
the trace). -/
theorem field_clash_before_io {T : Type} (env : Env T) (fuel : Nat) :
    (∀ self : ApplicationDetailServiceGetApkDetailCall,
      self._additional_params.any (fun p => p.1 = "alt") = true →
      self.doit env fuel =
        ([Ev.begin "testing.applicationDetailService.getApkDetails" "POST", Ev.finished false],
         some (Except.error (DoitErr.FieldClash "alt"))) ∧
      (self.doit env fuel).1.countP isRequestEv = 0 ∧
      (self.doit env fuel).1.countP isTokenRequestEv = 0 ∧
      (self.doit env fuel).1.countP isFinishedFalse = 1) ∧
    (∀ self : ProjectTestMatriceCancelCall,
      (["alt", "projectId", "testMatrixId"].any
          (fun f => self._additional_params.any (fun p => p.1 = f))) = true →
      ∃ f, f ∈ ["alt", "projectId", "testMatrixId"] ∧
        self._additional_params.any (fun p => p.1 = f) = true ∧
        self.doit env fuel =
          ([Ev.begin "testing.projects.testMatrices.cancel" "POST", Ev.finished false],
           some (Except.error (DoitErr.FieldClash f))) ∧
        (self.doit env fuel).1.countP isRequestEv = 0 ∧
        (self.doit env fuel).1.countP isTokenRequestEv = 0 ∧
        (self.doit env fuel).1.countP isFinishedFalse = 1) := by
  constructor
  · intro self hc
    have hd := getApkDetails_doit_clash env self fuel hc
    refine ⟨hd, ?_, ?_, ?_⟩ <;>
      simp [hd, List.countP_cons, List.countP_nil, isRequestEv, isTokenRequestEv, isFinishedFalse]
  · intro self hc
    obtain ⟨f, hf, hd⟩ := cancel_doit_clash env self fuel hc
    have hp := List.find?_some hf
    have hm := List.mem_of_find?_eq_some hf
    refine ⟨f, hm, by simpa using hp, hd, ?_, ?_, ?_⟩ <;>
      simp [hd, List.countP_cons, List.countP_nil, isRequestEv, isTokenRequestEv, isFinishedFalse]

/-- Witness for the field-clash theorem on both call builders. -/
theorem field_clash_before_io_witness :
    (clashGetCall.doit baseEnv 1 =
       ([Ev.begin "testing.applicationDetailService.getApkDetails" "POST", Ev.finished false],
        some (Except.error (DoitErr.FieldClash "alt"))) ∧
     (clashGetCall.doit baseEnv 1).1.countP isRequestEv = 0 ∧
     (clashGetCall.doit baseEnv 1).1.countP isTokenRequestEv = 0 ∧
     (clashGetCall.doit baseEnv 1).1.countP isFinishedFalse = 1) ∧
    (∃ f, f ∈ ["alt", "projectId", "testMatrixId"] ∧
      clashCancelCall._additional_params.any (fun p => p.1 = f) = true ∧
      clashCancelCall.doit baseEnv 1 =
        ([Ev.begin "testing.projects.testMatrices.cancel" "POST", Ev.finished false],
         some (Except.error (DoitErr.FieldClash f))) ∧
      (clashCancelCall.doit baseEnv 1).1.countP isRequestEv = 0 ∧
      (clashCancelCall.doit baseEnv 1).1.countP isTokenRequestEv = 0 ∧
      (clashCancelCall.doit baseEnv 1).1.countP isFinishedFalse = 1) := by
  exact ⟨(field_clash_before_io baseEnv 1).1 clashGetCall rfl,
         (field_clash_before_io baseEnv 1).2 clashCancelCall rfl⟩

/-- C4: when the transport returns a non-success status and the delegate
does not request a retry, `doit` returns `BadRequest(v)` with `v` exactly
the generic JSON value parsed from the body when the body parses, and
`Failure(response)` when it does not; in both cases `finished(false)` is
signalled exactly once, and the body parse failure itself never becomes an
error. -/
theorem http_failure_classification {T : Type} (env : Env T)
    (self : ApplicationDetailServiceGetApkDetailCall) (fuel : Nat)
    (tok : String) (res : HttpResponse)
    (hnc : self._additional_params.any (fun p => p.1 = "alt") = false)
    (htok : env.authToken 0 = Except.ok tok)
    (hT : env.transport 0 = Except.ok res)
    (hs : res.isSuccess = false)
    (hd : env.dlgHttpFailure 0 res (env.parseJson res.body) = Retry.Abort) :
    (self.doit env (fuel + 1)).2 =
      some (Except.error (match env.parseJson res.body with
        | some v => DoitErr.BadRequest v
        | none => DoitErr.Failure res)) ∧
    (self.doit env (fuel + 1)).1.countP isFinishedFalse = 1 ∧
    (self.doit env (fuel + 1)).1.countP isFinishedTrue = 0 := by
  rw [getApkDetails_doit_noclash env self (fuel + 1) hnc]
  cases hv : env.parseJson res.body with
  | none =>
    rw [hv] at hd
    refine ⟨?_, ?_, ?_⟩ <;>
      simp [doitLoop, doitAttempt, doitAttemptWithToken, htok, hT, hs, hv, hd,
        List.countP_cons, List.countP_nil, isFinishedFalse, isFinishedTrue]
  | some v =>
    rw [hv] at hd
    refine ⟨?_, ?_, ?_⟩ <;>
      simp [doitLoop, doitAttempt, doitAttemptWithToken, htok, hT, hs, hv, hd,
        List.countP_cons, List.countP_nil, isFinishedFalse, isFinishedTrue]

/-- Witness for the non-success classification: a 404 with a JSON body gives
`BadRequest` of exactly that value, a 500 with a non-JSON body gives
`Failure`; both signal `finished(false)` exactly once. -/
theorem http_failure_classification_witness :
    ((simpleGetCall.doit badRequestEnv 1).2 =
       some (Except.error (DoitErr.BadRequest (Json.str "notFound"))) ∧
     (simpleGetCall.doit badRequestEnv 1).1.countP isFinishedFalse = 1 ∧
     (simpleGetCall.doit badRequestEnv 1).1.countP isFinishedTrue = 0) ∧
    ((simpleGetCall.doit failureEnv 1).2 =
       some (Except.error (DoitErr.Failure { status := 500, body := "<html>" })) ∧
     (simpleGetCall.doit failureEnv 1).1.countP isFinishedFalse = 1 ∧
     (simpleGetCall.doit failureEnv 1).1.countP isFinishedTrue = 0) := by
  constructor
  · exact http_failure_classification badRequestEnv simpleGetCall 0 "tok"
      { status := 404, body := "notFound" } rfl rfl rfl rfl rfl
  · exact http_failure_classification failureEnv simpleGetCall 0 "tok"
      { status := 500, body := "<html>" } rfl rfl rfl rfl rfl

/-- C5: when the token provider succeeds and the transport returns a
success-status response whose body decodes as the expected typed response,
`doit` signals `finished(true)` exactly once and returns the response
together with the decoded value. -/
theorem success_path_finishes_true {T : Type} (env : Env T)
    (self : ApplicationDetailServiceGetApkDetailCall) (fuel : Nat)
    (tok : String) (res : HttpResponse) (v : T)
    (hnc : self._additional_params.any (fun p => p.1 = "alt") = false)
    (htok : env.authToken 0 = Except.ok tok)
    (hT : env.transport 0 = Except.ok res)
    (hs : res.isSuccess = true)
    (hdec : env.decode res.body = Except.ok v) :
    (self.doit env (fuel + 1)).2 = some (Except.ok (res, v)) ∧
    (self.doit env (fuel + 1)).1.countP isFinishedTrue = 1 ∧
    (self.doit env (fuel + 1)).1.countP isFinishedFalse = 0 := by
  rw [getApkDetails_doit_noclash env self (fuel + 1) hnc]
  refine ⟨?_, ?_, ?_⟩ <;>
    simp [doitLoop, doitAttempt, doitAttemptWithToken, htok, hT, hs, hdec,
      List.countP_cons, List.countP_nil, isFinishedFalse, isFinishedTrue]

/-- Witness for the success-path theorem. -/
theorem success_path_finishes_true_witness :
    (simpleGetCall.doit baseEnv 1).2 =
      some (Except.ok ({ status := 200, body := "7" }, 7)) ∧
    (simpleGetCall.doit baseEnv 1).1.countP isFinishedTrue = 1 ∧
    (simpleGetCall.doit baseEnv 1).1.countP isFinishedFalse = 0 := by
  exact success_path_finishes_true baseEnv simpleGetCall 0 "tok"
    { status := 200, body := "7" } 7 rfl rfl rfl rfl rfl

theorem doitAttemptWithToken_evs_head {T : Type} (env : Env T)
    (mkReq : String → HttpRequest) (i : Nat) (tok : String) :
    ∃ tail, (doitAttemptWithToken env mkReq i tok).1 =
      Ev.preRequest :: Ev.request (mkReq tok) :: tail := by
  unfold doitAttemptWithToken
  cases ht : env.transport i with
  | error err =>
    cases hd : env.dlgHttpError i err with
    | Abort => exact ⟨[Ev.dlgHttpError, Ev.finished false], by simp [ht, hd]⟩
    | After d => exact ⟨[Ev.dlgHttpError], by simp [ht, hd]⟩
  | ok res =>
    cases hs : res.isSuccess with
    | true =>
      cases hdec : env.decode res.body with
      | ok v => exact ⟨[Ev.finished true], by simp [ht, hs, hdec]⟩
      | error e => exact ⟨[Ev.decodeFailure res.body e], by simp [ht, hs, hdec]⟩
    | false =>
      cases hp : env.dlgHttpFailure i res (env.parseJson res.body) with
      | After d => exact ⟨[Ev.dlgHttpFailure], by simp [ht, hs, hp]⟩
      | Abort =>
        cases hv : env.parseJson res.body <;> rw [hv] at hp <;>
          exact ⟨[Ev.dlgHttpFailure, Ev.finished false], by simp [ht, hs, hp, hv]⟩

/-- C6: when the token provider fails for the call's scope set, `doit` asks
the delegate for a substitute token; with no substitute it returns
`MissingToken` carrying the provider's error and signals `finished(false)`,
issuing no transport request; with a substitute the pipeline proceeds and
the very next transport request carries the substitute bearer token. -/
theorem token_failure_handling {T : Type} (env : Env T)
    (self : ApplicationDetailServiceGetApkDetailCall) (fuel : Nat) (e : String)
    (hnc : self._additional_params.any (fun p => p.1 = "alt") = false)
    (htok : env.authToken 0 = Except.error e) :
    (env.dlgToken 0 e = none →
      (self.doit env (fuel + 1)).2 = some (Except.error (DoitErr.MissingToken e)) ∧
      (self.doit env (fuel + 1)).1.countP isRequestEv = 0 ∧
      (self.doit env (fuel + 1)).1.countP isFinishedFalse = 1) ∧
    (∀ tok, env.dlgToken 0 e = some tok →
      ∃ rest, (self.doit env (fuel + 1)).1 =
        Ev.begin "testing.applicationDetailService.getApkDetails" "POST" ::
        Ev.tokenRequest self.effScopes :: Ev.dlgTokenQuery e :: Ev.preRequest ::
        Ev.request (bodyRequest "POST" self.uri defaultUserAgent
          (self.requestBody env.render) tok) :: rest) := by
  constructor
  · intro hdl
    rw [getApkDetails_doit_noclash env self (fuel + 1) hnc]
    refine ⟨?_, ?_, ?_⟩ <;>
      simp [doitLoop, doitAttempt, htok, hdl, List.countP_cons, List.countP_nil,
        isRequestEv, isFinishedFalse]
  · intro tok hdl
    rw [getApkDetails_doit_noclash env self (fuel + 1) hnc]
    obtain ⟨tail, htail⟩ := doitAttemptWithToken_evs_head env
      (bodyRequest "POST" self.uri defaultUserAgent (self.requestBody env.render)) 0 tok
    rcases hw : doitAttemptWithToken env
        (bodyRequest "POST" self.uri defaultUserAgent (self.requestBody env.render)) 0 tok
      with ⟨wevs, wout⟩
    rw [hw] at htail
    have hAtt : doitAttempt env self.effScopes
        (bodyRequest "POST" self.uri defaultUserAgent (self.requestBody env.render)) 0 =
        (Ev.tokenRequest self.effScopes :: Ev.dlgTokenQuery e :: wevs, wout) := by
      unfold doitAttempt
      simp [htok, hdl, hw]
    cases wout with
    | done r =>
      have htail2 : wevs = Ev.preRequest :: Ev.request (bodyRequest "POST" self.uri
          defaultUserAgent (self.requestBody env.render) tok) :: tail := htail
      refine ⟨tail, ?_⟩
      simp [doitLoop, hAtt, htail2]
    | retryAfter d2 =>
      have htail2 : wevs = Ev.preRequest :: Ev.request (bodyRequest "POST" self.uri
          defaultUserAgent (self.requestBody env.render) tok) :: tail := htail
      refine ⟨tail ++ Ev.sleep d2 :: (doitLoop env self.effScopes
        (bodyRequest "POST" self.uri defaultUserAgent (self.requestBody env.render)) fuel 1).1, ?_⟩
      simp [doitLoop, hAtt, htail2]

/-- Witness for the token-failure theorem: one environment whose delegate
supplies no substitute (MissingToken, no transport request) and one whose
delegate supplies a substitute bearer token used by the next request. -/
theorem token_failure_handling_witness :
    ((simpleGetCall.doit missingTokenEnv 1).2 =
       some (Except.error (DoitErr.MissingToken "expired")) ∧
     (simpleGetCall.doit missingTokenEnv 1).1.countP isRequestEv = 0 ∧
     (simpleGetCall.doit missingTokenEnv 1).1.countP isFinishedFalse = 1) ∧
    (∃ rest, (simpleGetCall.doit substituteTokenEnv 1).1 =
       Ev.begin "testing.applicationDetailService.getApkDetails" "POST" ::
       Ev.tokenRequest simpleGetCall.effScopes :: Ev.dlgTokenQuery "expired" :: Ev.preRequest ::
       Ev.request (bodyRequest "POST" simpleGetCall.uri defaultUserAgent
         (simpleGetCall.requestBody substituteTokenEnv.render) "subst") :: rest) := by
  constructor
  · exact (token_failure_handling missingTokenEnv simpleGetCall 0 "expired" rfl rfl).1 rfl
  · exact (token_failure_handling substituteTokenEnv simpleGetCall 0 "expired" rfl rfl).2 "subst" rfl

theorem cancel_uri_query (self : ProjectTestMatriceCancelCall) :
    self.uri.query = self._additional_params ++ [("alt", "json")] := by
  simp [ProjectTestMatriceCancelCall.uri, ProjectTestMatriceCancelCall.params0,
    indicesForRemoval, removeIndices, List.findIdx?, List.eraseIdx]

theorem cancel_noclash_parts (self : ProjectTestMatriceCancelCall)
    (hc : (["alt", "projectId", "testMatrixId"].any
        (fun f => self._additional_params.any (fun p => p.1 = f))) = false) :
    self._additional_params.any (fun p => p.1 = "alt") = false ∧
    self._additional_params.any (fun p => p.1 = "projectId") = false ∧
    self._additional_params.any (fun p => p.1 = "testMatrixId") = false := by
  simpa using hc

/-- C7: every transport request built by `doit` carries the user-agent
header and a bearer authorization header, and its URL query always includes
`alt=json`; the body-bearing `getApkDetails` requests additionally carry
content-type `application/json` and a content-length equal to the byte
length of the serialized body, while the bodyless `testMatrices.cancel`
requests send an empty body with exactly the two headers (no content-type,
no content-length). -/
theorem request_headers_and_alt_json {T : Type} (env : Env T) (fuel : Nat) :
    (∀ (self : ApplicationDetailServiceGetApkDetailCall) req,
       Ev.request req ∈ (self.doit env fuel).1 →
       ("user-agent", defaultUserAgent) ∈ req.headers ∧
       (∃ tok, ("authorization", "Bearer " ++ tok) ∈ req.headers) ∧
       ("content-type", "application/json") ∈ req.headers ∧
       ("content-length", toString req.body.utf8ByteSize) ∈ req.headers ∧
       ("alt", "json") ∈ req.uri.query) ∧
    (∀ (self : ProjectTestMatriceCancelCall) req,
       Ev.request req ∈ (self.doit env fuel).1 →
       req.body = "" ∧
       (∃ tok, req.headers =
         [("user-agent", defaultUserAgent), ("authorization", "Bearer " ++ tok)]) ∧
       ("alt", "json") ∈ req.uri.query) := by
  constructor
  · intro self req hmem
    cases hc : self._additional_params.any (fun p => p.1 = "alt") with
    | true =>
      rw [getApkDetails_doit_clash env self fuel hc] at hmem
      simp at hmem
    | false =>
      rw [getApkDetails_doit_noclash env self fuel hc] at hmem
      simp at hmem
      obtain ⟨tok, rfl⟩ := (doitLoop_evShapes env self.effScopes
        (bodyRequest "POST" self.uri defaultUserAgent (self.requestBody env.render)) fuel 0).1
        req hmem
      refine ⟨?_, ⟨tok, ?_⟩, ?_, ?_, ?_⟩ <;>
        simp [bodyRequest, ApplicationDetailServiceGetApkDetailCall.uri]
  · intro self req hmem
    cases hc : (["alt", "projectId", "testMatrixId"].any
        (fun f => self._additional_params.any (fun p => p.1 = f))) with
    | true =>
      obtain ⟨f, _, hd⟩ := cancel_doit_clash env self fuel hc
      rw [hd] at hmem
      simp at hmem
    | false =>
      obtain ⟨h1, h2, h3⟩ := cancel_noclash_parts self hc
      rw [cancel_doit_noclash env self fuel h1 h2 h3] at hmem
      simp at hmem
      obtain ⟨tok, rfl⟩ := (doitLoop_evShapes env self.effScopes
        (emptyRequest "POST" self.uri defaultUserAgent) fuel 0).1 req hmem
      refine ⟨rfl, ⟨tok, rfl⟩, ?_⟩
      simp [emptyRequest, cancel_uri_query self]

/-- Witness for the request-shape theorem: the concrete requests issued by
the two calls under the baseline environment. -/
theorem request_headers_and_alt_json_witness :
    (("user-agent", defaultUserAgent) ∈ witnessGetReq.headers ∧
     (∃ tok, ("authorization", "Bearer " ++ tok) ∈ witnessGetReq.headers) ∧
     ("content-type", "application/json") ∈ witnessGetReq.headers ∧
     ("content-length", toString witnessGetReq.body.utf8ByteSize) ∈ witnessGetReq.headers ∧
     ("alt", "json") ∈ witnessGetReq.uri.query) ∧
    (witnessCancelReq.body = "" ∧
     (∃ tok, witnessCancelReq.headers =
       [("user-agent", defaultUserAgent), ("authorization", "Bearer " ++ tok)]) ∧
     ("alt", "json") ∈ witnessCancelReq.uri.query) := by
  have hmem : Ev.request witnessCancelReq ∈ (simpleCancelCall.doit baseEnv 1).1 := by
    rw [cancel_doit_noclash baseEnv simpleCancelCall 1 rfl rfl rfl]
    simp [doitLoop, doitAttempt, doitAttemptWithToken, baseEnv, HttpResponse.isSuccess,
      witnessCancelReq]
  constructor
  · exact (request_headers_and_alt_json baseEnv 1).1 simpleGetCall witnessGetReq (by decide)
  · exact (request_headers_and_alt_json baseEnv 1).2 simpleCancelCall witnessCancelReq hmem

/-- C10: when the caller added no scope before `doit`, the default
cloud-platform scope string is inserted into the scope set, so every token
request made by `doit` carries exactly the singleton default scope set — in
particular a non-empty one. -/
theorem default_scope_inserted {T : Type} (env : Env T) (fuel : Nat) :
    (∀ (self : ApplicationDetailServiceGetApkDetailCall), self._scopes = [] →
       ∀ s, Ev.tokenRequest s ∈ (self.doit env fuel).1 →
         s = [Scope.CloudPlatform.as_ref] ∧ s ≠ []) ∧
    (∀ (self : ProjectTestMatriceCancelCall), self._scopes = [] →
       ∀ s, Ev.tokenRequest s ∈ (self.doit env fuel).1 →
         s = [Scope.CloudPlatform.as_ref] ∧ s ≠ []) := by
  constructor
  · intro self hsc s hmem
    cases hc : self._additional_params.any (fun p => p.1 = "alt") with
    | true =>
      rw [getApkDetails_doit_clash env self fuel hc] at hmem
      simp at hmem
    | false =>
      rw [getApkDetails_doit_noclash env self fuel hc] at hmem
      simp at hmem
      have hs := (doitLoop_evShapes env self.effScopes
        (bodyRequest "POST" self.uri defaultUserAgent (self.requestBody env.render)) fuel 0).2
        s hmem
      subst hs
      simp [ApplicationDetailServiceGetApkDetailCall.effScopes, hsc]
  · intro self hsc s hmem
    cases hc : (["alt", "projectId", "testMatrixId"].any
        (fun f => self._additional_params.any (fun p => p.1 = f))) with
    | true =>
      obtain ⟨f, _, hd⟩ := cancel_doit_clash env self fuel hc
      rw [hd] at hmem
      simp at hmem
    | false =>
      obtain ⟨h1, h2, h3⟩ := cancel_noclash_parts self hc
      rw [cancel_doit_noclash env self fuel h1 h2 h3] at hmem
      simp at hmem
      have hs := (doitLoop_evShapes env self.effScopes
        (emptyRequest "POST" self.uri defaultUserAgent) fuel 0).2 s hmem
      subst hs
      simp [ProjectTestMatriceCancelCall.effScopes, hsc]

/-- Witness for the default-scope theorem: with no scope added, the token
request of the baseline run carries the cloud-platform scope singleton. -/
theorem default_scope_inserted_witness :
    [Scope.CloudPlatform.as_ref] = [Scope.CloudPlatform.as_ref] ∧
    ([Scope.CloudPlatform.as_ref] : List String) ≠ [] := by
  exact (default_scope_inserted baseEnv 1).1 simpleGetCall rfl
    [Scope.CloudPlatform.as_ref] (by decide)

end Testing1
